import Mathlib

/-!
# App Engine instances resolver

A shallow embedding of
`plugins/source/gcp/resources/services/appengine/instances.go`:
the table descriptor `Instances` and the resolver `fetchInstances`.

The resolver is stateful Go code (a client constructor, a listing call, an
iterator and a channel).  It is embedded as a pure function that returns the
trace of observable events of one run together with the way the run ended.
The remote side (client constructor, listing call) is a parameter of the
embedding; the iterator is the finite sequence of results of `it.Next()`.
-/

namespace Appengine

/-! ## Go values -/

/-- Go `error` values that are not nil.  `done` is the sentinel `iterator.Done`;
`canceled` is `context.Canceled`; `notFound` is the API's not-found status;
`wrap` is an error that wraps another one (a different value under `==`). -/
inductive GoError where
  | done : GoError
  | canceled : GoError
  | notFound : GoError
  | other : Nat → GoError
  | wrap : String → GoError → GoError
  deriving DecidableEq, Repr

/-- Provider item `pb.Instance` (the fields that identify it). -/
structure Instance where
  Name : String
  Id : String
  deriving DecidableEq, Repr

/-- Provider item `pb.Version` (the fields that identify it). -/
structure Version where
  Name : String
  Id : String
  deriving DecidableEq, Repr

/-- Request message `pb.ListInstancesRequest`; the defaults are Go zero values. -/
structure ListInstancesRequest where
  Parent : String := ""
  PageSize : Int := 0
  PageToken : String := ""
  deriving DecidableEq, Repr

/-- The `context.Context` handed to the resolver.  `cancelAt = some t` says that
the cancellation signal is set once `t` events of the run have happened. -/
structure Context where
  cancelAt : Option Nat
  deriving DecidableEq, Repr

/-- What `ctx.Err()` would answer after `t` events of the run. -/
def Context.Err (ctx : Context) (t : Nat) : Option GoError :=
  match ctx.cancelAt with
  | some k => if k ≤ t then some GoError.canceled else none
  | none => none

/-- The `client.Client` of the GCP plugin (the fields the resolver and the
project column read). -/
structure Client where
  ProjectId : String
  ClientOptions : List Nat
  CallOptions : List Nat
  deriving DecidableEq, Repr

/-- Dynamic kinds a `schema.ClientMeta` value can have. -/
inductive ClientMeta where
  | gcp : Client → ClientMeta
  | foreign : Nat → ClientMeta
  deriving DecidableEq, Repr

/-- Dynamic kinds the `Item` of a `schema.Resource` can have. -/
inductive Item where
  | version : Version → Item
  | instance_ : Instance → Item
  | foreign : Nat → Item
  deriving DecidableEq, Repr

/-- A `schema.Resource`; the resolver reads its `Item` only. -/
structure Resource where
  Item : Item
  deriving DecidableEq, Repr

/-- The type assertion `meta.(*client.Client)`; `none` is the panic. -/
def ClientMeta.asClient : ClientMeta → Option Client
  | ClientMeta.gcp c => some c
  | ClientMeta.foreign _ => none

/-- The type assertion `parent.Item.(*pb.Version)`; `none` is the panic. -/
def Item.asVersion : Item → Option Version
  | Item.version v => some v
  | Item.instance_ _ => none
  | Item.foreign _ => none

/-! ## The remote side -/

/-- Handle of a constructed `appengine.InstancesClient`. -/
structure InstancesClient where
  handle : Nat
  deriving DecidableEq, Repr

/-- The iterator returned by `ListInstances`: the results of the successive
calls of `it.Next()`.  When the sequence is used up, `Next` answers
`iterator.Done`. -/
abbrev InstanceIterator := List (Except GoError Instance)

/-- The external collaborators of the resolver. -/
structure Env where
  NewInstancesClient : Context → List Nat → Except GoError InstancesClient
  ListInstances : InstancesClient → Context → ListInstancesRequest → List Nat → InstanceIterator

/-! ## Runs -/

/-- Observable events of one run of the resolver. -/
inductive Event where
  | newInstancesClient : Context → List Nat → Event
  | listInstances : Context → ListInstancesRequest → List Nat → Event
  | next : Except GoError Instance → Event
  | send : Instance → Event

/-- The three places where the resolver can panic before doing anything. -/
inductive Panic where
  | metaAssertion : Panic
  | nilParent : Panic
  | itemAssertion : Panic
  deriving DecidableEq, Repr

/-- How a run ends: a panic, or a return with the `error` result (`none` = nil). -/
inductive Outcome where
  | panicked : Panic → Outcome
  | returned : Option GoError → Outcome
  deriving DecidableEq, Repr

/-- One run: its events in order, and how it ended. -/
structure Run where
  trace : List Event
  outcome : Outcome

/-- Values sent on `res`, in order. -/
def sent : List Event → List Instance
  | [] => []
  | Event.send x :: t => x :: sent t
  | _ :: t => sent t

/-- Number of `it.Next()` calls. -/
def nextCalls : List Event → Nat
  | [] => 0
  | Event.next _ :: t => nextCalls t + 1
  | _ :: t => nextCalls t

/-- Number of successful `it.Next()` calls (an item was obtained). -/
def obtained : List Event → Nat
  | [] => 0
  | Event.next (Except.ok _) :: t => obtained t + 1
  | _ :: t => obtained t

/-- Number of `appengine.NewInstancesClient` calls. -/
def clientBuilds : List Event → Nat
  | [] => 0
  | Event.newInstancesClient _ _ :: t => clientBuilds t + 1
  | _ :: t => clientBuilds t

/-- Number of `ListInstances` calls. -/
def listCalls : List Event → Nat
  | [] => 0
  | Event.listInstances _ _ _ :: t => listCalls t + 1
  | _ :: t => listCalls t

/-- The requests passed to `ListInstances`, in order. -/
def listRequests : List Event → List ListInstancesRequest
  | [] => []
  | Event.listInstances _ req _ :: t => req :: listRequests t
  | _ :: t => listRequests t

/-- Whether an event is a call of `it.Next()`. -/
def Event.isNext : Event → Bool
  | Event.next _ => true
  | _ => false

/-! ## The resolver -/

/-- The `for` loop of `fetchInstances` (lines 45 to 56): the events it produces
and the error it returns. -/
def drain : InstanceIterator → List Event × Option GoError
  | [] => ([Event.next (Except.error GoError.done)], none)
  | Except.error err :: _ =>
      if err = GoError.done then ([Event.next (Except.error err)], none)
      else ([Event.next (Except.error err)], some err)
  | Except.ok resp :: it =>
      (Event.next (Except.ok resp) :: Event.send resp :: (drain it).1, (drain it).2)

/-- The request literal of lines 37 to 39, built from the asserted parent. -/
def listRequest (v : Version) : ListInstancesRequest :=
  { Parent := v.Name }

/-- The resolver `fetchInstances(ctx, meta, parent, res)`. -/
def fetchInstances (env : Env) (ctx : Context) (meta : ClientMeta)
    (parent : Option Resource) : Run :=
  match meta.asClient with
  | none => { trace := [], outcome := Outcome.panicked Panic.metaAssertion }
  | some c =>
    match parent with
    | none => { trace := [], outcome := Outcome.panicked Panic.nilParent }
    | some p =>
      match p.Item.asVersion with
      | none => { trace := [], outcome := Outcome.panicked Panic.itemAssertion }
      | some v =>
        let req := listRequest v
        match env.NewInstancesClient ctx c.ClientOptions with
        | Except.error err =>
            { trace := [Event.newInstancesClient ctx c.ClientOptions],
              outcome := Outcome.returned (some err) }
        | Except.ok gcpClient =>
            let it := env.ListInstances gcpClient ctx req c.CallOptions
            { trace := Event.newInstancesClient ctx c.ClientOptions
                :: Event.listInstances ctx req c.CallOptions :: (drain it).1,
              outcome := Outcome.returned (drain it).2 }

/-! ## The table descriptor -/

/-- Arrow column types the descriptor can name. -/
inductive ArrowType where
  | string : ArrowType
  | int64 : ArrowType
  | boolean : ArrowType
  deriving DecidableEq, Repr

/-- Column resolvers the descriptor can name. -/
inductive ColumnResolver where
  | resolveProject : ColumnResolver
  | pathResolver : String → ColumnResolver
  deriving DecidableEq, Repr

/-- A `schema.Column` (the fields the descriptor sets; `PrimaryKey` is false
unless set). -/
structure Column where
  Name : String
  Type_ : ArrowType
  Resolver : ColumnResolver
  PrimaryKey : Bool := false
  deriving DecidableEq, Repr

/-- Multiplexers the descriptor can name. -/
inductive Multiplexer where
  | projectMultiplexEnabledServices : String → Multiplexer
  deriving DecidableEq, Repr

/-- The transform policy `client.TransformWithStruct(&pb.T{}, options...)`:
the struct it reflects on and the fields named by `WithPrimaryKeys`. -/
structure TransformPolicy where
  structName : String
  primaryKeys : List String
  deriving DecidableEq, Repr

/-- A `schema.Table` (the fields the descriptor sets). -/
structure Table where
  Name : String
  Description : String
  Resolver : Env → Context → ClientMeta → Option Resource → Run
  Multiplex : Multiplexer
  Transform : TransformPolicy
  Columns : List Column

/-- The descriptor `Instances()`. -/
def Instances : Table :=
  { Name := "gcp_appengine_instances",
    Description := "https://cloud.google.com/appengine/docs/admin-api/reference/rest/v1/apps.services.versions.instances#Instance",
    Resolver := fetchInstances,
    Multiplex := Multiplexer.projectMultiplexEnabledServices "appengine.googleapis.com",
    Transform := { structName := "Instance", primaryKeys := ["Name"] },
    Columns := [
      { Name := "project_id",
        Type_ := ArrowType.string,
        Resolver := ColumnResolver.resolveProject,
        PrimaryKey := true } ] }

/-- Modelled from the spec: the field lookup of the transform stage, which is
not part of the source file.  It reads a declared key field from the item and
has no answer when the item has no such field. -/
def Instance.field (x : Instance) (name : String) : Option String :=
  if name = "Name" then some x.Name
  else if name = "Id" then some x.Id
  else none

/-- Modelled from the spec: the resolution of a declared static column, which
is not part of the source file.  The project column is resolved from the
scope of the extraction context, independently of the remote item. -/
def resolveColumn (c : Client) : ColumnResolver → Option String
  | ColumnResolver.resolveProject => some c.ProjectId
  | ColumnResolver.pathResolver _ => none

/-- All the values when every one of them is present, nothing otherwise. -/
def collect : List (Option String) → Option (List String)
  | [] => some []
  | none :: _ => none
  | some a :: rest =>
      match collect rest with
      | some as => some (a :: as)
      | none => none

/-- Modelled from the spec: the primary-key derivation of the transform stage,
which is not part of the source file.  The key of a row is built from the
declared static columns flagged as primary key, followed by the key fields the
transform policy names; it fails when a declared key field is absent. -/
def primaryKey (t : Table) (c : Client) (x : Instance) : Option (List String) :=
  match collect ((t.Columns.filter (fun col => col.PrimaryKey)).map
          (fun col => resolveColumn c col.Resolver)),
        collect (t.Transform.primaryKeys.map x.field) with
  | some scope, some fields => some (scope ++ fields)
  | _, _ => none

/-! ## Trace predicates and sample inputs -/

/-- Whether no `it.Next()` call happens from position `t` of the trace on. -/
def noNextFrom (t : Nat) (tr : List Event) : Bool :=
  (tr.drop t).all (fun e => !e.isNext)

/-- A remote side that builds the client and answers the listing call with
the given iterator. -/
def scriptedEnv (it : InstanceIterator) : Env :=
  { NewInstancesClient := fun _ _ => Except.ok { handle := 0 },
    ListInstances := fun _ _ _ _ => it }

/-- A remote side on which the client cannot be built. -/
def failingEnv (e : GoError) : Env :=
  { NewInstancesClient := fun _ _ => Except.error e,
    ListInstances := fun _ _ _ _ => [] }

/-- A context that is never cancelled. -/
def background : Context := { cancelAt := none }

/-- A sample plugin client. -/
def sampleClient : Client :=
  { ProjectId := "p1", ClientOptions := [1], CallOptions := [2] }

/-- A sample parent version. -/
def sampleVersion : Version := { Name := "apps/p1/services/s/versions/v", Id := "v" }

/-- The sample parent handle. -/
def sampleParent : Option Resource := some { Item := Item.version sampleVersion }

/-- Sample instances. -/
def inst (n : String) : Instance := { Name := n, Id := n }

/-- A listing of two pages, of three and of two items, then the end of results. -/
def twoPages : List (List Instance) :=
  [[inst "a", inst "b", inst "c"], [inst "d", inst "e"]]

/-- The run in which the context is cancelled once the first page (two items)
has been emitted and the iterator reports the cancellation on the next call. -/
def cancelledRun : Run :=
  fetchInstances
    (scriptedEnv [Except.ok (inst "a"), Except.ok (inst "b"), Except.error GoError.canceled])
    { cancelAt := some 6 } (ClientMeta.gcp sampleClient) sampleParent

/-- The run in which the context is cancelled once the first page (two items)
has been emitted and the iterator still has a buffered item. -/
def cancelledBufferedRun : Run :=
  fetchInstances
    (scriptedEnv [Except.ok (inst "a"), Except.ok (inst "b"), Except.ok (inst "c"),
      Except.error GoError.done])
    { cancelAt := some 6 } (ClientMeta.gcp sampleClient) sampleParent

/-- The run in which the first `it.Next()` answers not-found. -/
def notFoundRun : Run :=
  fetchInstances (scriptedEnv [Except.error GoError.notFound]) background
    (ClientMeta.gcp sampleClient) sampleParent

/-- The run with a plugin client as meta and a nil parent. -/
def nilParentRun : Run :=
  fetchInstances (scriptedEnv [Except.ok (inst "a")]) background
    (ClientMeta.gcp sampleClient) none

/-! ## Properties of the loop -/

theorem drain_items_err (xs : List Instance) (tail : InstanceIterator) :
    (drain (xs.map Except.ok ++ tail)).2 = (drain tail).2 := by
  induction xs with
  | nil => rfl
  | cons x xs ih => simpa [drain] using ih

theorem drain_items_sent (xs : List Instance) (tail : InstanceIterator) :
    sent (drain (xs.map Except.ok ++ tail)).1 = xs ++ sent (drain tail).1 := by
  induction xs with
  | nil => rfl
  | cons x xs ih => simpa [drain, sent] using ih

theorem drain_items_nextCalls (xs : List Instance) (tail : InstanceIterator) :
    nextCalls (drain (xs.map Except.ok ++ tail)).1
      = xs.length + nextCalls (drain tail).1 := by
  induction xs with
  | nil => simp
  | cons x xs ih => simp [drain, nextCalls, ih]; omega

theorem drain_items_length (xs : List Instance) (tail : InstanceIterator) :
    (drain (xs.map Except.ok ++ tail)).1.length
      = 2 * xs.length + (drain tail).1.length := by
  induction xs with
  | nil => simp
  | cons x xs ih => simp [drain, ih]; omega

theorem drain_error (e : GoError) (rest : InstanceIterator) :
    drain (Except.error e :: rest)
      = ([Event.next (Except.error e)], if e = GoError.done then none else some e) := by
  unfold drain
  split <;> rfl

theorem sent_cons_cons (a b : Event) (t : List Event)
    (ha : ∀ x, a ≠ Event.send x) (hb : ∀ x, b ≠ Event.send x) :
    sent (a :: b :: t) = sent t := by
  cases a <;> cases b <;> simp_all [sent]

/-- The run of the resolver once both assertions hold and the client is built. -/
theorem fetchInstances_ok (env : Env) (ctx : Context) (c : Client) (v : Version)
    (gcpClient : InstancesClient)
    (hclient : env.NewInstancesClient ctx c.ClientOptions = Except.ok gcpClient) :
    fetchInstances env ctx (ClientMeta.gcp c) (some { Item := Item.version v })
      = { trace := Event.newInstancesClient ctx c.ClientOptions
            :: Event.listInstances ctx (listRequest v) c.CallOptions
            :: (drain (env.ListInstances gcpClient ctx (listRequest v) c.CallOptions)).1,
          outcome := Outcome.returned
            (drain (env.ListInstances gcpClient ctx (listRequest v) c.CallOptions)).2 } := by
  simp [fetchInstances, ClientMeta.asClient, Item.asVersion, hclient]

/-- The run of the resolver once both assertions hold and the client cannot be built. -/
theorem fetchInstances_noClient (env : Env) (ctx : Context) (c : Client) (v : Version)
    (e : GoError)
    (hclient : env.NewInstancesClient ctx c.ClientOptions = Except.error e) :
    fetchInstances env ctx (ClientMeta.gcp c) (some { Item := Item.version v })
      = { trace := [Event.newInstancesClient ctx c.ClientOptions],
          outcome := Outcome.returned (some e) } := by
  simp [fetchInstances, ClientMeta.asClient, Item.asVersion, hclient]

theorem drain_nextCalls (it : InstanceIterator) :
    nextCalls (drain it).1 = (sent (drain it).1).length + 1 := by
  induction it with
  | nil => rfl
  | cons r it ih =>
    cases r with
    | error e => rw [drain_error]; rfl
    | ok y => simp [drain, nextCalls, sent, ih]

theorem drain_clientBuilds (it : InstanceIterator) : clientBuilds (drain it).1 = 0 := by
  induction it with
  | nil => rfl
  | cons r it ih =>
    cases r with
    | error e => rw [drain_error]; rfl
    | ok y => simpa [drain, clientBuilds] using ih

theorem drain_listCalls (it : InstanceIterator) : listCalls (drain it).1 = 0 := by
  induction it with
  | nil => rfl
  | cons r it ih =>
    cases r with
    | error e => rw [drain_error]; rfl
    | ok y => simpa [drain, listCalls] using ih

theorem drain_send_follows (it : InstanceIterator) :
    ∀ (i : Nat) (x : Instance), (drain it).1[i]? = some (Event.next (Except.ok x)) →
      (drain it).1[i + 1]? = some (Event.send x) := by
  induction it with
  | nil => intro i x h; cases i <;> simp [drain] at h
  | cons r it ih =>
    cases r with
    | error e => rw [drain_error]; intro i x h; cases i <;> simp at h
    | ok y =>
      intro i x h
      match i with
      | 0 => simp [drain] at h; subst h; simp [drain]
      | 1 => simp [drain] at h
      | k + 2 =>
        have h2 : (drain it).1[k]? = some (Event.next (Except.ok x)) := by
          simpa [drain] using h
        simpa [drain] using ih k x h2

theorem drain_final_is_last (it : InstanceIterator) :
    ∀ (i : Nat) (e : GoError), (drain it).1[i]? = some (Event.next (Except.error e)) →
      (drain it).1.length = i + 1 := by
  induction it with
  | nil => intro i e h; cases i <;> simp [drain] at h ⊢
  | cons r it ih =>
    cases r with
    | error e => rw [drain_error]; intro i x h; cases i <;> simp at h ⊢
    | ok y =>
      intro i e h
      match i with
      | 0 => simp [drain] at h
      | 1 => simp [drain] at h
      | k + 2 =>
        have h2 : (drain it).1[k]? = some (Event.next (Except.error e)) := by
          simpa [drain] using h
        simpa [drain] using ih k e h2

theorem drain_pending (it : InstanceIterator) :
    ∀ k : Nat, (sent ((drain it).1.take k)).length ≤ obtained ((drain it).1.take k)
      ∧ obtained ((drain it).1.take k) ≤ (sent ((drain it).1.take k)).length + 1 := by
  induction it with
  | nil => intro k; cases k <;> simp [drain, sent, obtained]
  | cons r it ih =>
    cases r with
    | error e => rw [drain_error]; intro k; cases k <;> simp [sent, obtained]
    | ok y =>
      intro k
      match k with
      | 0 => simp [sent, obtained]
      | 1 => simp [drain, sent, obtained]
      | j + 2 =>
        have := ih j
        simp [drain, sent, obtained]
        omega

theorem drain_items_getElem (xs : List Instance) (tail : InstanceIterator) (j : Nat) :
    (drain (xs.map Except.ok ++ tail)).1[2 * xs.length + j]? = (drain tail).1[j]? := by
  induction xs with
  | nil => simp
  | cons x xs ih =>
    have hidx : 2 * (x :: xs).length + j = (2 * xs.length + j) + 1 + 1 := by
      simp; omega
    rw [hidx]
    simpa [drain] using ih

/-! ## The claims -/

/-- C1: for a parent version and an iterator that yields the items of `K ≥ 0`
pages in page order and then `iterator.Done`, `fetchInstances` sends exactly
those items on `res`, in that order, and returns nil. -/
theorem fetchInstances_delivers_all_pages (env : Env) (ctx : Context) (c : Client)
    (v : Version) (gcpClient : InstancesClient) (pages : List (List Instance))
    (rest : InstanceIterator)
    (hclient : env.NewInstancesClient ctx c.ClientOptions = Except.ok gcpClient)
    (hit : env.ListInstances gcpClient ctx (listRequest v) c.CallOptions
      = pages.flatten.map Except.ok ++ Except.error GoError.done :: rest) :
    sent (fetchInstances env ctx (ClientMeta.gcp c) (some { Item := Item.version v })).trace
        = pages.flatten
      ∧ (fetchInstances env ctx (ClientMeta.gcp c) (some { Item := Item.version v })).outcome
        = Outcome.returned none := by
  rw [fetchInstances_ok env ctx c v gcpClient hclient, hit]
  constructor
  · show sent (_ :: _ :: _) = _
    rw [sent_cons_cons _ _ _ (by intro x h; cases h) (by intro x h; cases h),
      drain_items_sent, drain_error]
    simp [sent]
  · show Outcome.returned _ = _
    rw [drain_items_err, drain_error]
    simp

/-- C1, at pages of 3 and 2 items (5 items delivered in concatenated order) and
at no page at all (nothing sent), both ending without error. -/
theorem fetchInstances_delivers_all_pages_witness :
    (sent (fetchInstances
        (scriptedEnv (twoPages.flatten.map Except.ok ++ [Except.error GoError.done]))
        background (ClientMeta.gcp sampleClient) sampleParent).trace
        = [inst "a", inst "b", inst "c", inst "d", inst "e"]
      ∧ (fetchInstances
        (scriptedEnv (twoPages.flatten.map Except.ok ++ [Except.error GoError.done]))
        background (ClientMeta.gcp sampleClient) sampleParent).outcome
        = Outcome.returned none)
    ∧ (sent (fetchInstances (scriptedEnv [Except.error GoError.done])
        background (ClientMeta.gcp sampleClient) sampleParent).trace = []
      ∧ (fetchInstances (scriptedEnv [Except.error GoError.done])
        background (ClientMeta.gcp sampleClient) sampleParent).outcome
        = Outcome.returned none) :=
  ⟨fetchInstances_delivers_all_pages
      (scriptedEnv (twoPages.flatten.map Except.ok ++ [Except.error GoError.done]))
      background sampleClient sampleVersion { handle := 0 } twoPages [] rfl rfl,
   fetchInstances_delivers_all_pages (scriptedEnv [Except.error GoError.done])
      background sampleClient sampleVersion { handle := 0 } [] [] rfl rfl⟩

/-- C2: for an iterator that yields items `xs` and then an error `e` other than
`iterator.Done`, `fetchInstances` returns exactly `e` and the sink has received
exactly `xs`, in order. -/
theorem fetchInstances_surfaces_error (env : Env) (ctx : Context) (c : Client)
    (v : Version) (gcpClient : InstancesClient) (xs : List Instance) (e : GoError)
    (rest : InstanceIterator) (he : e ≠ GoError.done)
    (hclient : env.NewInstancesClient ctx c.ClientOptions = Except.ok gcpClient)
    (hit : env.ListInstances gcpClient ctx (listRequest v) c.CallOptions
      = xs.map Except.ok ++ Except.error e :: rest) :
    (fetchInstances env ctx (ClientMeta.gcp c) (some { Item := Item.version v })).outcome
        = Outcome.returned (some e)
      ∧ sent (fetchInstances env ctx (ClientMeta.gcp c)
          (some { Item := Item.version v })).trace = xs := by
  rw [fetchInstances_ok env ctx c v gcpClient hclient, hit]
  constructor
  · show Outcome.returned _ = _
    rw [drain_items_err, drain_error]
    simp [he]
  · show sent (_ :: _ :: _) = _
    rw [sent_cons_cons _ _ _ (by intro x h; cases h) (by intro x h; cases h),
      drain_items_sent, drain_error]
    simp [sent]

/-- C2, at two items followed by a wrapped error and a further item that is
never reached. -/
theorem fetchInstances_surfaces_error_witness :
    (fetchInstances
        (scriptedEnv [Except.ok (inst "a"), Except.ok (inst "b"),
          Except.error (GoError.wrap "rpc" (GoError.other 14)), Except.ok (inst "c")])
        background (ClientMeta.gcp sampleClient) sampleParent).outcome
        = Outcome.returned (some (GoError.wrap "rpc" (GoError.other 14)))
      ∧ sent (fetchInstances
        (scriptedEnv [Except.ok (inst "a"), Except.ok (inst "b"),
          Except.error (GoError.wrap "rpc" (GoError.other 14)), Except.ok (inst "c")])
        background (ClientMeta.gcp sampleClient) sampleParent).trace
        = [inst "a", inst "b"] :=
  fetchInstances_surfaces_error
    (scriptedEnv [Except.ok (inst "a"), Except.ok (inst "b"),
      Except.error (GoError.wrap "rpc" (GoError.other 14)), Except.ok (inst "c")])
    background sampleClient sampleVersion { handle := 0 } [inst "a", inst "b"]
    (GoError.wrap "rpc" (GoError.other 14)) [Except.ok (inst "c")] (by decide) rfl rfl

/-- C3 as stated fails: when the first `it.Next()` answers not-found, the run
does not return nil, it returns the not-found error. -/
theorem notFound_is_not_empty_result :
    notFoundRun.outcome ≠ Outcome.returned none
      ∧ notFoundRun.outcome = Outcome.returned (some GoError.notFound) := by
  constructor
  · decide
  · rfl

/-- C3, amended: when the first `it.Next()` answers not-found, `fetchInstances`
emits zero items, makes no further call and returns the not-found error. -/
theorem fetchInstances_notFound_surfaced (env : Env) (ctx : Context) (c : Client)
    (v : Version) (gcpClient : InstancesClient) (rest : InstanceIterator)
    (hclient : env.NewInstancesClient ctx c.ClientOptions = Except.ok gcpClient)
    (hit : env.ListInstances gcpClient ctx (listRequest v) c.CallOptions
      = Except.error GoError.notFound :: rest) :
    sent (fetchInstances env ctx (ClientMeta.gcp c) (some { Item := Item.version v })).trace
        = []
      ∧ nextCalls (fetchInstances env ctx (ClientMeta.gcp c)
          (some { Item := Item.version v })).trace = 1
      ∧ (fetchInstances env ctx (ClientMeta.gcp c) (some { Item := Item.version v })).outcome
        = Outcome.returned (some GoError.notFound) := by
  rw [fetchInstances_ok env ctx c v gcpClient hclient, hit, drain_error]
  simp [sent, nextCalls]

/-- C3 amended, at a listing whose first answer is not-found. -/
theorem fetchInstances_notFound_surfaced_witness :
    sent (fetchInstances (scriptedEnv [Except.error GoError.notFound, Except.ok (inst "a")])
        background (ClientMeta.gcp sampleClient) sampleParent).trace = []
      ∧ nextCalls (fetchInstances
          (scriptedEnv [Except.error GoError.notFound, Except.ok (inst "a")])
          background (ClientMeta.gcp sampleClient) sampleParent).trace = 1
      ∧ (fetchInstances (scriptedEnv [Except.error GoError.notFound, Except.ok (inst "a")])
        background (ClientMeta.gcp sampleClient) sampleParent).outcome
        = Outcome.returned (some GoError.notFound) :=
  fetchInstances_notFound_surfaced
    (scriptedEnv [Except.error GoError.notFound, Except.ok (inst "a")])
    background sampleClient sampleVersion { handle := 0 } [Except.ok (inst "a")] rfl rfl

/-- C4 as stated fails: with the context cancelled once the first page has
been emitted (6 events, both items delivered, `ctx.Err()` set), the resolver
still calls `it.Next()`; and when the iterator has a buffered item the run goes
on to emit it and returns nil, not a cancellation error. -/
theorem cancelled_context_still_calls_next :
    sent (cancelledRun.trace.take 6) = [inst "a", inst "b"]
      ∧ Context.Err { cancelAt := some 6 } 6 = some GoError.canceled
      ∧ noNextFrom 6 cancelledRun.trace = false
      ∧ cancelledRun.trace[6]? = some (Event.next (Except.error GoError.canceled))
      ∧ noNextFrom 6 cancelledBufferedRun.trace = false
      ∧ cancelledBufferedRun.outcome = Outcome.returned none
      ∧ sent cancelledBufferedRun.trace = [inst "a", inst "b", inst "c"] := by
  refine ⟨rfl, rfl, rfl, rfl, rfl, rfl, rfl⟩

/-- C4, amended: `fetchInstances` does not check the cancellation signal.  When
the context is cancelled once the first page has been emitted, the resolver
still makes the next `it.Next()` call; when that call answers the cancellation
error, it is the last event of the run, the error is returned unchanged and the
items of the first page stay delivered. -/
theorem fetchInstances_cancel_seen_by_iterator (env : Env) (ctx : Context) (c : Client)
    (v : Version) (gcpClient : InstancesClient) (page1 : List Instance)
    (rest : InstanceIterator)
    (hcancel : ctx.cancelAt = some (2 + 2 * page1.length))
    (hclient : env.NewInstancesClient ctx c.ClientOptions = Except.ok gcpClient)
    (hit : env.ListInstances gcpClient ctx (listRequest v) c.CallOptions
      = page1.map Except.ok ++ Except.error GoError.canceled :: rest) :
    ctx.Err (2 + 2 * page1.length) = some GoError.canceled
      ∧ (fetchInstances env ctx (ClientMeta.gcp c)
          (some { Item := Item.version v })).trace[2 + 2 * page1.length]?
        = some (Event.next (Except.error GoError.canceled))
      ∧ (fetchInstances env ctx (ClientMeta.gcp c)
          (some { Item := Item.version v })).trace.length = 2 + 2 * page1.length + 1
      ∧ (fetchInstances env ctx (ClientMeta.gcp c) (some { Item := Item.version v })).outcome
        = Outcome.returned (some GoError.canceled)
      ∧ sent (fetchInstances env ctx (ClientMeta.gcp c)
          (some { Item := Item.version v })).trace = page1 := by
  rw [fetchInstances_ok env ctx c v gcpClient hclient, hit]
  refine ⟨?_, ?_, ?_, ?_, ?_⟩
  · simp [Context.Err, hcancel]
  · show (_ :: _ :: _)[2 + 2 * page1.length]? = _
    have hidx : 2 + 2 * page1.length = 2 * page1.length + 1 + 1 := by omega
    have hget := drain_items_getElem page1 (Except.error GoError.canceled :: rest) 0
    rw [hidx, List.getElem?_cons_succ, List.getElem?_cons_succ]
    rw [Nat.add_zero] at hget
    rw [hget, drain_error]
    rfl
  · show (_ :: _ :: _).length = _
    rw [List.length_cons, List.length_cons, drain_items_length, drain_error]
    simp
    omega
  · show Outcome.returned _ = _
    rw [drain_items_err, drain_error]
    simp
  · show sent (_ :: _ :: _) = _
    rw [sent_cons_cons _ _ _ (by intro x h; cases h) (by intro x h; cases h),
      drain_items_sent, drain_error]
    simp [sent]

/-- C4 amended, at a first page of two items. -/
theorem fetchInstances_cancel_seen_by_iterator_witness :
    Context.Err { cancelAt := some 6 } (2 + 2 * [inst "a", inst "b"].length)
        = some GoError.canceled
      ∧ cancelledRun.trace[2 + 2 * [inst "a", inst "b"].length]?
        = some (Event.next (Except.error GoError.canceled))
      ∧ cancelledRun.trace.length = 2 + 2 * [inst "a", inst "b"].length + 1
      ∧ cancelledRun.outcome = Outcome.returned (some GoError.canceled)
      ∧ sent cancelledRun.trace = [inst "a", inst "b"] :=
  fetchInstances_cancel_seen_by_iterator
    (scriptedEnv [Except.ok (inst "a"), Except.ok (inst "b"), Except.error GoError.canceled])
    { cancelAt := some 6 } sampleClient sampleVersion { handle := 0 }
    [inst "a", inst "b"] [] rfl rfl rfl

/-- C5: the request built for a parent version `v` has `Parent = v.Name` and
every other field at its zero value (empty `PageToken`), and it is the request
passed to `ListInstances`, unmodified, whenever the listing call is made. -/
theorem listRequest_carries_parent_only (env : Env) (ctx : Context) (c : Client)
    (v : Version) :
    listRequest v = { Parent := v.Name, PageSize := 0, PageToken := "" }
      ∧ (listRequest v).PageToken = ""
      ∧ listRequests (fetchInstances env ctx (ClientMeta.gcp c)
          (some { Item := Item.version v })).trace
        = (match env.NewInstancesClient ctx c.ClientOptions with
           | Except.ok _ => [listRequest v]
           | Except.error _ => []) := by
  refine ⟨rfl, rfl, ?_⟩
  have hdrain : ∀ it : InstanceIterator, listRequests (drain it).1 = [] := by
    intro it
    induction it with
    | nil => rfl
    | cons r it ih =>
      cases r with
      | error e => rw [drain_error]; rfl
      | ok y => simpa [drain, listRequests] using ih
  cases h : env.NewInstancesClient ctx c.ClientOptions with
  | error e => rw [fetchInstances_noClient env ctx c v e h]; rfl
  | ok g => rw [fetchInstances_ok env ctx c v g h]; simp [listRequests, hdrain]

/-- C6: the descriptor names "Name" as primary key of the item and declares one
static column, project_id, of string type, resolved by the project resolver and
flagged primary key; so the key of a row is the pair (project_id, Name), rows
with the same Name and different project_id have different keys, and equal keys
force equal project_id and equal Name. -/
theorem Instances_primaryKey_is_project_and_name :
    Instances.Transform.primaryKeys = ["Name"]
      ∧ Instances.Columns
        = [Column.mk "project_id" ArrowType.string ColumnResolver.resolveProject true]
      ∧ (∀ (c : Client) (x : Instance),
          primaryKey Instances c x = some [c.ProjectId, x.Name])
      ∧ (∀ (c₁ c₂ : Client) (x₁ x₂ : Instance), x₁.Name = x₂.Name →
          c₁.ProjectId ≠ c₂.ProjectId →
          primaryKey Instances c₁ x₁ ≠ primaryKey Instances c₂ x₂)
      ∧ (∀ (c₁ c₂ : Client) (x₁ x₂ : Instance),
          primaryKey Instances c₁ x₁ = primaryKey Instances c₂ x₂ →
          c₁.ProjectId = c₂.ProjectId ∧ x₁.Name = x₂.Name) := by
  have key : ∀ (c : Client) (x : Instance),
      primaryKey Instances c x = some [c.ProjectId, x.Name] := by
    intro c x
    simp [primaryKey, Instances, resolveColumn, Instance.field, collect]
  refine ⟨rfl, rfl, key, ?_, ?_⟩
  · intro c₁ c₂ x₁ x₂ _ hp h
    rw [key, key] at h
    simp at h
    exact hp h.1
  · intro c₁ c₂ x₁ x₂ h
    rw [key, key] at h
    simpa using h

/-- C6, at two rows with the same instance name in two projects. -/
theorem Instances_primaryKey_is_project_and_name_witness :
    primaryKey Instances { ProjectId := "p1", ClientOptions := [], CallOptions := [] }
        (inst "a")
      ≠ primaryKey Instances { ProjectId := "p2", ClientOptions := [], CallOptions := [] }
        (inst "a") :=
  Instances_primaryKey_is_project_and_name.2.2.2.1
    { ProjectId := "p1", ClientOptions := [], CallOptions := [] }
    { ProjectId := "p2", ClientOptions := [], CallOptions := [] }
    (inst "a") (inst "a") rfl (by decide)

/-- C7: in every run the instances client is constructed at most once and
`ListInstances` is called at most once; in a run that obtains the iterator the
number of `it.Next()` calls is one more than the number of items emitted (and
a run that does not obtain it makes no such call and emits nothing); an
`it.Next()` that returned `iterator.Done` or an error is the last event of the
run. -/
theorem fetchInstances_never_retries (env : Env) (ctx : Context) (meta : ClientMeta)
    (parent : Option Resource) :
    clientBuilds (fetchInstances env ctx meta parent).trace ≤ 1
      ∧ listCalls (fetchInstances env ctx meta parent).trace ≤ 1
      ∧ (listCalls (fetchInstances env ctx meta parent).trace = 1 →
          nextCalls (fetchInstances env ctx meta parent).trace
            = (sent (fetchInstances env ctx meta parent).trace).length + 1)
      ∧ (listCalls (fetchInstances env ctx meta parent).trace = 0 →
          nextCalls (fetchInstances env ctx meta parent).trace = 0
            ∧ sent (fetchInstances env ctx meta parent).trace = [])
      ∧ (∀ (i : Nat) (e : GoError),
          (fetchInstances env ctx meta parent).trace[i]? = some (Event.next (Except.error e)) →
          (fetchInstances env ctx meta parent).trace.length = i + 1) := by
  cases meta with
  | foreign n => simp [fetchInstances, ClientMeta.asClient, clientBuilds, listCalls,
      nextCalls, sent]
  | gcp c =>
    cases parent with
    | none => simp [fetchInstances, ClientMeta.asClient, clientBuilds, listCalls,
        nextCalls, sent]
    | some p =>
      obtain ⟨item⟩ := p
      cases item with
      | instance_ x => simp [fetchInstances, ClientMeta.asClient, Item.asVersion,
          clientBuilds, listCalls, nextCalls, sent]
      | foreign n => simp [fetchInstances, ClientMeta.asClient, Item.asVersion,
          clientBuilds, listCalls, nextCalls, sent]
      | version v =>
        cases h : env.NewInstancesClient ctx c.ClientOptions with
        | error e =>
          rw [fetchInstances_noClient env ctx c v e h]
          refine ⟨by simp [clientBuilds], by simp [listCalls], by simp [listCalls],
            by simp [nextCalls, sent], ?_⟩
          intro i e' hi
          cases i <;> simp at hi
        | ok g =>
          rw [fetchInstances_ok env ctx c v g h]
          refine ⟨by simp [clientBuilds, drain_clientBuilds],
            by simp [listCalls, drain_listCalls], ?_, by simp [listCalls], ?_⟩
          · intro _
            simp [nextCalls, sent, drain_nextCalls]
          · intro i e hi
            match i with
            | 0 => simp at hi
            | 1 => simp at hi
            | k + 2 =>
              have hk := drain_final_is_last _ k e (by simpa using hi)
              simp [hk]

/-- C7, at a listing of two items and a transport error: one client, one
listing call, three calls of `it.Next()` for two items emitted. -/
theorem fetchInstances_never_retries_witness :
    nextCalls (fetchInstances
        (scriptedEnv [Except.ok (inst "a"), Except.ok (inst "b"),
          Except.error (GoError.other 14), Except.ok (inst "c")])
        background (ClientMeta.gcp sampleClient) sampleParent).trace
      = (sent (fetchInstances
        (scriptedEnv [Except.ok (inst "a"), Except.ok (inst "b"),
          Except.error (GoError.other 14), Except.ok (inst "c")])
        background (ClientMeta.gcp sampleClient) sampleParent).trace).length + 1 :=
  (fetchInstances_never_retries
    (scriptedEnv [Except.ok (inst "a"), Except.ok (inst "b"),
      Except.error (GoError.other 14), Except.ok (inst "c")])
    background (ClientMeta.gcp sampleClient) sampleParent).2.2.1 rfl

/-- C8: in the trace of every run, a successful `it.Next()` that returned `x` is
immediately followed by the send of `x` on `res`; so at every point of the run
the items obtained exceed the items delivered by at most one. -/
theorem fetchInstances_emits_immediately (env : Env) (ctx : Context) (meta : ClientMeta)
    (parent : Option Resource) :
    (∀ (i : Nat) (x : Instance),
        (fetchInstances env ctx meta parent).trace[i]? = some (Event.next (Except.ok x)) →
        (fetchInstances env ctx meta parent).trace[i + 1]? = some (Event.send x))
      ∧ (∀ k : Nat,
        (sent ((fetchInstances env ctx meta parent).trace.take k)).length
            ≤ obtained ((fetchInstances env ctx meta parent).trace.take k)
          ∧ obtained ((fetchInstances env ctx meta parent).trace.take k)
            ≤ (sent ((fetchInstances env ctx meta parent).trace.take k)).length + 1) := by
  cases meta with
  | foreign n => simp [fetchInstances, ClientMeta.asClient, sent, obtained]
  | gcp c =>
    cases parent with
    | none => simp [fetchInstances, ClientMeta.asClient, sent, obtained]
    | some p =>
      obtain ⟨item⟩ := p
      cases item with
      | instance_ x => simp [fetchInstances, ClientMeta.asClient, Item.asVersion, sent,
          obtained]
      | foreign n => simp [fetchInstances, ClientMeta.asClient, Item.asVersion, sent,
          obtained]
      | version v =>
        cases h : env.NewInstancesClient ctx c.ClientOptions with
        | error e =>
          rw [fetchInstances_noClient env ctx c v e h]
          constructor
          · intro i x hi
            cases i <;> simp at hi
          · intro k
            cases k <;> simp [sent, obtained]
        | ok g =>
          rw [fetchInstances_ok env ctx c v g h]
          constructor
          · intro i x hi
            match i with
            | 0 => simp at hi
            | 1 => simp at hi
            | k + 2 =>
              have hk := drain_send_follows _ k x (by simpa using hi)
              simpa using hk
          · intro k
            match k with
            | 0 => simp [sent, obtained]
            | 1 => simp [sent, obtained]
            | j + 2 =>
              have hj := drain_pending
                (env.ListInstances g ctx (listRequest v) c.CallOptions) j
              simpa [sent, obtained] using hj

/-- C8, at the first item of a listing of two items: the event after the
`it.Next()` that obtained it is its send. -/
theorem fetchInstances_emits_immediately_witness :
    (fetchInstances
        (scriptedEnv [Except.ok (inst "a"), Except.ok (inst "b"), Except.error GoError.done])
        background (ClientMeta.gcp sampleClient) sampleParent).trace[2 + 1]?
      = some (Event.send (inst "a")) :=
  (fetchInstances_emits_immediately
    (scriptedEnv [Except.ok (inst "a"), Except.ok (inst "b"), Except.error GoError.done])
    background (ClientMeta.gcp sampleClient) sampleParent).1 2 (inst "a") rfl

/-- C9: when constructing the instances client fails with error `e`, the run
consists of that construction alone, returns exactly `e`, sends nothing and
calls neither `ListInstances` nor `it.Next()`; and in every run a listing call
is the second event, made right after a successful client construction. -/
theorem fetchInstances_client_failure (env : Env) (ctx : Context) (meta : ClientMeta)
    (parent : Option Resource) :
    (∀ (c : Client) (v : Version) (e : GoError), meta = ClientMeta.gcp c →
        parent = some { Item := Item.version v } →
        env.NewInstancesClient ctx c.ClientOptions = Except.error e →
        (fetchInstances env ctx meta parent).outcome = Outcome.returned (some e)
          ∧ (fetchInstances env ctx meta parent).trace
            = [Event.newInstancesClient ctx c.ClientOptions]
          ∧ sent (fetchInstances env ctx meta parent).trace = []
          ∧ listCalls (fetchInstances env ctx meta parent).trace = 0
          ∧ nextCalls (fetchInstances env ctx meta parent).trace = 0)
      ∧ (∀ (i : Nat) (ctx₁ : Context) (req : ListInstancesRequest) (opts : List Nat),
        (fetchInstances env ctx meta parent).trace[i]?
            = some (Event.listInstances ctx₁ req opts) →
        i = 1 ∧ ∃ (c : Client) (gcpClient : InstancesClient), meta = ClientMeta.gcp c
          ∧ env.NewInstancesClient ctx c.ClientOptions = Except.ok gcpClient
          ∧ (fetchInstances env ctx meta parent).trace[0]?
            = some (Event.newInstancesClient ctx c.ClientOptions)) := by
  constructor
  · intro c v e hm hp he
    subst hm hp
    rw [fetchInstances_noClient env ctx c v e he]
    simp [sent, listCalls, nextCalls]
  · have hdrain : ∀ (it : InstanceIterator) (k : Nat) (ctx₁ : Context)
        (req : ListInstancesRequest) (opts : List Nat),
        (drain it).1[k]? ≠ some (Event.listInstances ctx₁ req opts) := by
      intro it
      induction it with
      | nil => intro k ctx₁ req opts; cases k <;> simp [drain]
      | cons r it ih =>
        cases r with
        | error e => rw [drain_error]; intro k ctx₁ req opts; cases k <;> simp
        | ok y =>
          intro k ctx₁ req opts
          match k with
          | 0 => simp [drain]
          | 1 => simp [drain]
          | j + 2 => simpa [drain] using ih j ctx₁ req opts
    intro i ctx₁ req opts hi
    cases meta with
    | foreign n => simp [fetchInstances, ClientMeta.asClient] at hi
    | gcp c =>
      cases parent with
      | none => simp [fetchInstances, ClientMeta.asClient] at hi
      | some p =>
        obtain ⟨item⟩ := p
        cases item with
        | instance_ x => simp [fetchInstances, ClientMeta.asClient, Item.asVersion] at hi
        | foreign n => simp [fetchInstances, ClientMeta.asClient, Item.asVersion] at hi
        | version v =>
          cases h : env.NewInstancesClient ctx c.ClientOptions with
          | error e =>
            rw [fetchInstances_noClient env ctx c v e h] at hi
            cases i <;> simp at hi
          | ok g =>
            rw [fetchInstances_ok env ctx c v g h] at hi ⊢
            match i with
            | 0 => simp at hi
            | 1 => exact ⟨rfl, c, g, rfl, h, rfl⟩
            | k + 2 =>
              exfalso
              exact hdrain _ k ctx₁ req opts (by simpa using hi)

/-- C9, at a remote side on which the client cannot be built. -/
theorem fetchInstances_client_failure_witness :
    (fetchInstances (failingEnv (GoError.other 7)) background
        (ClientMeta.gcp sampleClient) sampleParent).outcome
        = Outcome.returned (some (GoError.other 7))
      ∧ (fetchInstances (failingEnv (GoError.other 7)) background
        (ClientMeta.gcp sampleClient) sampleParent).trace
        = [Event.newInstancesClient background sampleClient.ClientOptions]
      ∧ sent (fetchInstances (failingEnv (GoError.other 7)) background
        (ClientMeta.gcp sampleClient) sampleParent).trace = []
      ∧ listCalls (fetchInstances (failingEnv (GoError.other 7)) background
        (ClientMeta.gcp sampleClient) sampleParent).trace = 0
      ∧ nextCalls (fetchInstances (failingEnv (GoError.other 7)) background
        (ClientMeta.gcp sampleClient) sampleParent).trace = 0 :=
  (fetchInstances_client_failure (failingEnv (GoError.other 7)) background
    (ClientMeta.gcp sampleClient) sampleParent).1 sampleClient sampleVersion
    (GoError.other 7) rfl rfl rfl

/-- C10 as stated fails: with a plugin client as meta (the first assertion
holds) and a nil parent (no item whose assertion could fail), the run still
panics, on the dereference of the parent, before any event. -/
theorem nil_parent_panics_outside_assertions :
    nilParentRun.outcome = Outcome.panicked Panic.nilParent
      ∧ nilParentRun.trace = []
      ∧ (ClientMeta.gcp sampleClient).asClient = some sampleClient
      ∧ (¬ ∃ r : Resource, (none : Option Resource) = some r ∧ r.Item.asVersion = none)
      ∧ Panic.nilParent ≠ Panic.metaAssertion
      ∧ Panic.nilParent ≠ Panic.itemAssertion := by
  refine ⟨rfl, rfl, rfl, ?_, by decide, by decide⟩
  rintro ⟨r, hr, _⟩
  cases hr

/-- C10, amended: the run panics exactly when meta is of another kind than the
plugin client, or the parent is nil, or the parent's item is of another kind
than a version; these three places are its only panic points and every
panicking run has an empty trace (no client built, no item emitted).  So no
panic happens when meta is a plugin client and the parent is non-nil with a
version as item, and for a non-nil parent the two assertions are the only
places where a run panics. -/
theorem fetchInstances_panic_points (env : Env) (ctx : Context)
    (meta : ClientMeta) (parent : Option Resource) :
    (∀ (c : Client) (v : Version), meta = ClientMeta.gcp c →
        parent = some { Item := Item.version v } →
        ∀ p : Panic, (fetchInstances env ctx meta parent).outcome ≠ Outcome.panicked p)
      ∧ (meta.asClient = none →
          (fetchInstances env ctx meta parent).outcome
              = Outcome.panicked Panic.metaAssertion
            ∧ (fetchInstances env ctx meta parent).trace = [])
      ∧ (∀ r : Resource, parent = some r → r.Item.asVersion = none →
          (∃ p : Panic, (fetchInstances env ctx meta parent).outcome = Outcome.panicked p)
            ∧ (fetchInstances env ctx meta parent).trace = [])
      ∧ (∀ r : Resource, parent = some r →
          ((∃ p : Panic, (fetchInstances env ctx meta parent).outcome = Outcome.panicked p)
            ↔ (meta.asClient = none ∨ r.Item.asVersion = none)))
      ∧ (∀ p : Panic, (fetchInstances env ctx meta parent).outcome = Outcome.panicked p →
          (fetchInstances env ctx meta parent).trace = [])
      ∧ (∀ c : Client, meta = ClientMeta.gcp c → parent = none →
          (fetchInstances env ctx meta parent).outcome = Outcome.panicked Panic.nilParent
            ∧ (fetchInstances env ctx meta parent).trace = [])
      ∧ ((∃ p : Panic, (fetchInstances env ctx meta parent).outcome = Outcome.panicked p)
          ↔ (meta.asClient = none ∨ parent = none
              ∨ ∃ r : Resource, parent = some r ∧ r.Item.asVersion = none)) := by
  cases meta with
  | foreign n => simp [fetchInstances, ClientMeta.asClient]
  | gcp c =>
    cases parent with
    | none => simp [fetchInstances, ClientMeta.asClient]
    | some q =>
      obtain ⟨item⟩ := q
      cases item with
      | instance_ x => simp [fetchInstances, ClientMeta.asClient, Item.asVersion]
      | foreign n => simp [fetchInstances, ClientMeta.asClient, Item.asVersion]
      | version v =>
        cases h : env.NewInstancesClient ctx c.ClientOptions with
        | error e =>
          rw [fetchInstances_noClient env ctx c v e h]
          simp [ClientMeta.asClient, Item.asVersion]
        | ok g =>
          rw [fetchInstances_ok env ctx c v g h]
          simp [ClientMeta.asClient, Item.asVersion]

/-- C10 amended, at a foreign client kind, at a parent whose item is an
instance and at a nil parent (all three runs panic before any event), and at
the sample client with the sample version (no panic). -/
theorem fetchInstances_panic_points_witness :
    ((fetchInstances (scriptedEnv [Except.ok (inst "a")]) background
        (ClientMeta.foreign 3) sampleParent).outcome = Outcome.panicked Panic.metaAssertion
      ∧ (fetchInstances (scriptedEnv [Except.ok (inst "a")]) background
        (ClientMeta.foreign 3) sampleParent).trace = [])
    ∧ ((∃ p : Panic, (fetchInstances (scriptedEnv [Except.ok (inst "a")]) background
        (ClientMeta.gcp sampleClient)
        (some { Item := Item.instance_ (inst "a") })).outcome = Outcome.panicked p)
      ∧ (fetchInstances (scriptedEnv [Except.ok (inst "a")]) background
        (ClientMeta.gcp sampleClient)
        (some { Item := Item.instance_ (inst "a") })).trace = [])
    ∧ ((fetchInstances (scriptedEnv [Except.ok (inst "a")]) background
        (ClientMeta.gcp sampleClient) none).outcome = Outcome.panicked Panic.nilParent
      ∧ (fetchInstances (scriptedEnv [Except.ok (inst "a")]) background
        (ClientMeta.gcp sampleClient) none).trace = [])
    ∧ ∀ p : Panic, (fetchInstances (scriptedEnv [Except.ok (inst "a")]) background
        (ClientMeta.gcp sampleClient) sampleParent).outcome ≠ Outcome.panicked p :=
  ⟨(fetchInstances_panic_points (scriptedEnv [Except.ok (inst "a")])
      background (ClientMeta.foreign 3) sampleParent).2.1 rfl,
   (fetchInstances_panic_points (scriptedEnv [Except.ok (inst "a")])
      background (ClientMeta.gcp sampleClient)
      (some { Item := Item.instance_ (inst "a") })).2.2.1
      { Item := Item.instance_ (inst "a") } rfl rfl,
   (fetchInstances_panic_points (scriptedEnv [Except.ok (inst "a")])
      background (ClientMeta.gcp sampleClient) none).2.2.2.2.2.1 sampleClient rfl rfl,
   (fetchInstances_panic_points (scriptedEnv [Except.ok (inst "a")])
      background (ClientMeta.gcp sampleClient) sampleParent).1
      sampleClient sampleVersion rfl rfl⟩

end Appengine
